import Mathlib

/-!
Verification of the SSE broadcast registry of the MentraOS React example app
(`src/index.ts`).  The server keeps `sseConnections : Map<string, Response[]>`,
a map from user id to the list of open Server-Sent-Events response handles.
We embed the registry as an association list with unique keys, response
handles as opaque numeric identifiers (reference equality on `Response`
objects becomes equality of identifiers), and each route handler as a pure
function from registry state to registry state plus the list of
`(handle, message)` writes it performs.
-/

namespace SSE

/-- User ids (`userId`) are opaque strings. -/
abbrev Identity := String

/-- An `express.Response` handle; reference identity is modelled by a numeric id. -/
abbrev Handle := Nat

/-- The registry `sseConnections : Map<string, express.Response[]>`. -/
abbrev Registry := List (Identity × List Handle)

/-- The transcript payload relayed to the frontend (`interface TranscriptData`). -/
structure TranscriptData where
  text : String
  timestamp : Nat
  isFinal : Bool
deriving DecidableEq

/-- `Map.get`: the collection stored under `u`, if any. -/
def findEntry : Registry → Identity → Option (List Handle)
  | [], _ => none
  | (k, v) :: rest, u => if k = u then some v else findEntry rest u

/-- `Map.set`: store `l` under `u`, replacing an existing entry. -/
def setEntry : Registry → Identity → List Handle → Registry
  | [], u, l => [(u, l)]
  | (k, v) :: rest, u, l =>
    if k = u then (u, l) :: rest else (k, v) :: setEntry rest u l

/-- `Map.delete`: drop the entry stored under `u`. -/
def deleteEntry : Registry → Identity → Registry
  | [], _ => []
  | (k, v) :: rest, u =>
    if k = u then deleteEntry rest u else (k, v) :: deleteEntry rest u

/-- The spec's `snapshot`: the current handles of `u`, empty when `u` is absent
(`sseConnections.get(userId)` with a miss treated as zero subscribers). -/
def snapshot (r : Registry) (u : Identity) : List Handle :=
  (findEntry r u).getD []

/-- JS `Array.prototype.indexOf`, restricted to handles; `none` stands for `-1`. -/
def indexOfH : List Handle → Handle → Option Nat
  | [], _ => none
  | x :: xs, h => if x = h then some 0 else (indexOfH xs h).map (fun i => i + 1)

/-- A hexadecimal digit as produced by JS `\u00XX` escapes (lowercase). -/
def hexDigit (n : Nat) : Char :=
  if n < 10 then Char.ofNat (48 + n) else Char.ofNat (87 + n)

/-- `JSON.stringify` escaping of a single character inside a string literal. -/
def escapeChar (c : Char) : String :=
  if c = '"' then ("\\\"")
  else if c = '\\' then ("\\\\")
  else if c = '\x08' then ("\\b")
  else if c = '\x09' then ("\\t")
  else if c = '\x0a' then ("\\n")
  else if c = '\x0c' then ("\\f")
  else if c = '\x0d' then ("\\r")
  else if c.toNat < 32 then
    ("\\u00") ++ String.singleton (hexDigit (c.toNat / 16))
      ++ String.singleton (hexDigit (c.toNat % 16))
  else String.singleton c

/-- `JSON.stringify` of a string value. -/
def jsonString (s : String) : String :=
  ("\"") ++ String.join (s.toList.map escapeChar) ++ ("\"")

/-- `JSON.stringify({ type: 'transcript', ...transcript })`: key order is
`type`, then the spread of `\x7b text, timestamp, isFinal \x7d` as built in
`onTranscription`.  Timestamps are `Date.now()` integer milliseconds, which
`JSON.stringify` prints in plain decimal. -/
def serializeTranscript (t : TranscriptData) : String :=
  ("\x7b\"type\":\"transcript\",\"text\":") ++ jsonString t.text
    ++ (",\"timestamp\":") ++ toString t.timestamp
    ++ (",\"isFinal\":") ++ (if t.isFinal then ("true") else ("false")) ++ ("\x7d")

/-- `JSON.stringify({ type: 'connected', userId })`. -/
def serializeConnected (u : Identity) : String :=
  ("\x7b\"type\":\"connected\",\"userId\":") ++ jsonString u ++ ("\x7d")

/-- One SSE message as written by `res.write`: `data: <json>\n\n`. -/
def sseFrame (data : String) : String :=
  ("data: ") ++ data ++ ("\n\n")

/-- `register` — the `/api/transcripts` handler's bookkeeping
(`index.ts` lines 68–71): create the collection if absent, then push. -/
def register (r : Registry) (u : Identity) (h : Handle) : Registry :=
  let r1 := if (findEntry r u).isSome then r else setEntry r u []
  match findEntry r1 u with
  | some connections => setEntry r1 u (connections ++ [h])
  | none => r1

/-- `indexOf` the handle and `splice(index, 1)` when found (`index > -1`);
otherwise leave the array alone. -/
def spliceOut (connections : List Handle) (h : Handle) : List Handle :=
  match indexOfH connections h with
  | some i => connections.eraseIdx i
  | none => connections

/-- `unregister` — the `req.on('close')` handler (`index.ts` lines 78–87):
look up the collection; `indexOf` the handle and `splice` it out when found;
delete the entry when the collection is left empty. -/
def unregister (r : Registry) (u : Identity) (h : Handle) : Registry :=
  match findEntry r u with
  | none => r
  | some connections =>
    let connections' := spliceOut connections h
    if connections'.length = 0 then deleteEntry r u
    else setEntry r u connections'

/-- `closeAll` — the `onDisconnected` handler (`index.ts` lines 154–162):
`res.end()` every handle of `u` (returned as the second component) and
delete the entry. -/
def closeAll (r : Registry) (u : Identity) : Registry × List Handle :=
  match findEntry r u with
  | none => (r, [])
  | some connections => (deleteEntry r u, connections)

/-- `sendTranscriptUpdate` (`index.ts` lines 109–121): look up the user's
collection, serialize the event once, and `forEach` a frame write to every
handle, in collection order.  The registry is not touched; the result is the
list of `(handle, message)` writes performed. -/
def sendTranscriptUpdate (r : Registry) (u : Identity) (transcript : TranscriptData) :
    List (Handle × String) :=
  match findEntry r u with
  | none => []
  | some connections =>
    let data := serializeTranscript transcript
    connections.map (fun res => (res, sseFrame data))

/-- Which handles' `res.write` throws (a dead socket), for modelling write
failures inside `sendTranscriptUpdate`. -/
abbrev FailSet := Handle → Bool

/-- `connections.forEach(res => res.write(...))` with possibly-throwing
writes: a synchronous exception from `res.write` propagates out of `forEach`,
aborting the remaining iterations.  Returns the writes actually performed and
whether an exception escaped. -/
def writeEach (fails : FailSet) (msg : String) : List Handle → List (Handle × String) × Bool
  | [] => ([], false)
  | res :: rest =>
    if fails res then ([], true)
    else
      let out := writeEach fails msg rest
      ((res, msg) :: out.1, out.2)

/-- `sendTranscriptUpdate` with possibly-throwing writes: the source has no
try/catch, so the first throwing write aborts the `forEach` and the exception
escapes `sendTranscriptUpdate` itself. -/
def sendTranscriptUpdateF (fails : FailSet) (r : Registry) (u : Identity)
    (transcript : TranscriptData) : List (Handle × String) × Bool :=
  match findEntry r u with
  | none => ([], false)
  | some connections =>
    let data := serializeTranscript transcript
    writeEach fails (sseFrame data) connections

/-- Outcome of one request to `/api/transcripts`. -/
structure ConnectResult where
  registry : Registry
  status : Nat
  writes : List (Handle × String)
deriving DecidableEq

/-- The `/api/transcripts` handler (`index.ts` lines 51–74): without an
authenticated `userId` respond 401 and stop; otherwise respond 200, register
the fresh response handle and write the `connected` acknowledgment to it. -/
def handleTranscripts (r : Registry) (auth : Option Identity) (h : Handle) : ConnectResult :=
  match auth with
  | none => { registry := r, status := 401, writes := [] }
  | some u =>
    { registry := register r u h
      status := 200
      writes := [(h, sseFrame (serializeConnected u))] }

/-- The registry-relevant operations of the server, for whole-trace claims. -/
inductive Op where
  | connect (auth : Option Identity) (h : Handle)
  | close (u : Identity) (h : Handle)
  | closeSession (u : Identity)
  | publish (u : Identity) (t : TranscriptData)
deriving DecidableEq

/-- One operation: the registry afterwards and the SSE writes performed. -/
def step (r : Registry) : Op → Registry × List (Handle × String)
  | Op.connect auth h =>
    let res := handleTranscripts r auth h
    (res.registry, res.writes)
  | Op.close u h => (unregister r u h, [])
  | Op.closeSession u => ((closeAll r u).1, [])
  | Op.publish u t => (r, sendTranscriptUpdate r u t)

/-- Run a sequence of operations, concatenating the write logs. -/
def run (r : Registry) : List Op → Registry × List (Handle × String)
  | [] => (r, [])
  | op :: ops =>
    let s := step r op
    let rest := run s.1 ops
    (rest.1, s.2 ++ rest.2)

/-- `h` is nowhere registered in `r` (a fresh response handle). -/
def handleFree (r : Registry) (h : Handle) : Prop :=
  ∀ p ∈ r, h ∉ p.2

instance (r : Registry) (hh : Handle) : Decidable (handleFree r hh) := by
  unfold handleFree
  infer_instance

/-- Whether `op` is the connection of handle `h`. -/
def isConnectOf (op : Op) (h : Handle) : Bool :=
  match op with
  | Op.connect _ h2 => h2 = h
  | _ => false

/-- Registry well-formedness: keys are unique (it models a JS `Map`) and no
entry holds an empty collection. -/
def WF (r : Registry) : Prop :=
  (r.map Prod.fst).Nodup ∧ ∀ p ∈ r, p.2 ≠ []

instance : DecidablePred (fun r : Registry => WF r) := fun r => by
  unfold WF
  infer_instance

theorem findEntry_setEntry_self (r : Registry) (u : Identity) (l : List Handle) :
    findEntry (setEntry r u l) u = some l := by
  induction r with
  | nil => simp [setEntry, findEntry]
  | cons p rest ih =>
    obtain ⟨k, v⟩ := p
    by_cases hk : k = u
    · simp [setEntry, findEntry, hk]
    · simp [setEntry, findEntry, hk, ih]

theorem findEntry_setEntry_ne (r : Registry) (u w : Identity) (l : List Handle)
    (hwu : w ≠ u) : findEntry (setEntry r u l) w = findEntry r w := by
  induction r with
  | nil => simp [setEntry, findEntry, Ne.symm hwu]
  | cons p rest ih =>
    obtain ⟨k, v⟩ := p
    by_cases hk : k = u
    · subst hk
      simp [setEntry, findEntry, Ne.symm hwu]
    · simp [setEntry, findEntry, hk, ih]

theorem findEntry_deleteEntry_self (r : Registry) (u : Identity) :
    findEntry (deleteEntry r u) u = none := by
  induction r with
  | nil => simp [deleteEntry, findEntry]
  | cons p rest ih =>
    obtain ⟨k, v⟩ := p
    by_cases hk : k = u
    · simp [deleteEntry, hk, ih]
    · simp [deleteEntry, findEntry, hk, ih]

theorem findEntry_deleteEntry_ne (r : Registry) (u w : Identity) (hwu : w ≠ u) :
    findEntry (deleteEntry r u) w = findEntry r w := by
  induction r with
  | nil => simp [deleteEntry]
  | cons p rest ih =>
    obtain ⟨k, v⟩ := p
    by_cases hk : k = u
    · subst hk
      simp [deleteEntry, findEntry, Ne.symm hwu, ih]
    · simp [deleteEntry, findEntry, hk, ih]

theorem setEntry_setEntry (r : Registry) (u : Identity) (l l' : List Handle) :
    setEntry (setEntry r u l) u l' = setEntry r u l' := by
  induction r with
  | nil => simp [setEntry]
  | cons p rest ih =>
    obtain ⟨k, v⟩ := p
    by_cases hk : k = u
    · simp [setEntry, hk]
    · simp [setEntry, hk, ih]

theorem mem_setEntry (r : Registry) (u : Identity) (l : List Handle)
    (p : Identity × List Handle) (hp : p ∈ setEntry r u l) : p ∈ r ∨ p = (u, l) := by
  induction r with
  | nil =>
    simp [setEntry] at hp
    exact Or.inr hp
  | cons q rest ih =>
    obtain ⟨k, v⟩ := q
    by_cases hk : k = u
    · simp [setEntry, hk] at hp
      rcases hp with hp | hp
      · exact Or.inr hp
      · exact Or.inl (List.mem_cons_of_mem _ hp)
    · simp [setEntry, hk] at hp
      rcases hp with hp | hp
      · exact Or.inl (by simp [hp])
      · rcases ih hp with h' | h'
        · exact Or.inl (List.mem_cons_of_mem _ h')
        · exact Or.inr h'

theorem deleteEntry_sublist (r : Registry) (u : Identity) :
    List.Sublist (deleteEntry r u) r := by
  induction r with
  | nil => simp [deleteEntry]
  | cons p rest ih =>
    obtain ⟨k, v⟩ := p
    by_cases hk : k = u
    · simp only [deleteEntry, hk, if_pos rfl]
      exact ih.cons _
    · simp only [deleteEntry, hk, if_neg hk]
      exact ih.cons₂ _

theorem mem_deleteEntry (r : Registry) (u : Identity) (p : Identity × List Handle)
    (hp : p ∈ deleteEntry r u) : p ∈ r :=
  (deleteEntry_sublist r u).mem hp

theorem not_mem_keys_deleteEntry (r : Registry) (u : Identity) :
    u ∉ (deleteEntry r u).map Prod.fst := by
  induction r with
  | nil => simp [deleteEntry]
  | cons p rest ih =>
    obtain ⟨k, v⟩ := p
    by_cases hk : k = u
    · simpa [deleteEntry, hk] using ih
    · simp [deleteEntry, hk, ih, Ne.symm hk]

theorem mem_keys_setEntry (r : Registry) (u : Identity) (l : List Handle)
    (w : Identity) (hw : w ∈ (setEntry r u l).map Prod.fst) :
    w ∈ r.map Prod.fst ∨ w = u := by
  simp only [List.mem_map] at hw
  obtain ⟨p, hp, hpw⟩ := hw
  rcases mem_setEntry r u l p hp with h' | h'
  · exact Or.inl (List.mem_map.mpr ⟨p, h', hpw⟩)
  · subst h'
    exact Or.inr hpw.symm

theorem keys_setEntry_nodup (r : Registry) (u : Identity) (l : List Handle)
    (hr : (r.map Prod.fst).Nodup) : ((setEntry r u l).map Prod.fst).Nodup := by
  induction r with
  | nil => simp [setEntry]
  | cons p rest ih =>
    obtain ⟨k, v⟩ := p
    simp only [List.map_cons, List.nodup_cons] at hr
    by_cases hk : k = u
    · subst hk
      simpa [setEntry] using hr
    · simp only [setEntry, if_neg hk, List.map_cons, List.nodup_cons]
      refine ⟨fun hmem => ?_, ih hr.2⟩
      rcases mem_keys_setEntry rest u l k hmem with h' | h'
      · exact hr.1 h'
      · exact hk h'

theorem keys_deleteEntry_nodup (r : Registry) (u : Identity)
    (hr : (r.map Prod.fst).Nodup) : ((deleteEntry r u).map Prod.fst).Nodup :=
  (((deleteEntry_sublist r u).map Prod.fst).nodup hr)

theorem findEntry_mem (r : Registry) (u : Identity) (l : List Handle)
    (h : findEntry r u = some l) : (u, l) ∈ r := by
  induction r with
  | nil => simp [findEntry] at h
  | cons p rest ih =>
    obtain ⟨k, v⟩ := p
    by_cases hk : k = u
    · subst hk
      simp [findEntry] at h
      simp [h]
    · simp [findEntry, hk] at h
      exact List.mem_cons_of_mem _ (ih h)

theorem findEntry_eq_none_of_not_mem_keys (r : Registry) (u : Identity)
    (h : u ∉ r.map Prod.fst) : findEntry r u = none := by
  induction r with
  | nil => simp [findEntry]
  | cons p rest ih =>
    obtain ⟨k, v⟩ := p
    simp only [List.map_cons, List.mem_cons] at h
    push_neg at h
    simp [findEntry, Ne.symm h.1, ih h.2]

theorem spliceOut_eq_erase (l : List Handle) (h : Handle) :
    spliceOut l h = l.erase h := by
  induction l with
  | nil => simp [spliceOut, indexOfH]
  | cons x xs ih =>
    by_cases hx : x = h
    · subst hx
      simp [spliceOut, indexOfH, List.eraseIdx]
    · have key : spliceOut (x :: xs) h = x :: spliceOut xs h := by
        cases hxs : indexOfH xs h with
        | none => simp [spliceOut, indexOfH, hx, hxs]
        | some i => simp [spliceOut, indexOfH, hx, hxs, List.eraseIdx]
      rw [key, ih, List.erase_cons_tail (by simpa using hx)]

theorem register_eq (r : Registry) (u : Identity) (h : Handle) :
    register r u h = setEntry r u (snapshot r u ++ [h]) := by
  unfold register snapshot
  cases hr : findEntry r u with
  | some l => simp [hr]
  | none => simp [hr, findEntry_setEntry_self, setEntry_setEntry]

theorem unregister_eq (r : Registry) (u : Identity) (h : Handle) :
    unregister r u h =
      match findEntry r u with
      | none => r
      | some connections =>
        if connections.erase h = [] then deleteEntry r u
        else setEntry r u (connections.erase h) := by
  unfold unregister
  cases hr : findEntry r u with
  | none => rfl
  | some l =>
    simp only [spliceOut_eq_erase, List.length_eq_zero]

theorem snapshot_register_self (r : Registry) (u : Identity) (h : Handle) :
    snapshot (register r u h) u = snapshot r u ++ [h] := by
  simp [snapshot, register_eq, findEntry_setEntry_self]

theorem findEntry_register_self (r : Registry) (u : Identity) (h : Handle) :
    findEntry (register r u h) u = some (snapshot r u ++ [h]) := by
  rw [register_eq]
  exact findEntry_setEntry_self r u _

theorem findEntry_register_ne (r : Registry) (u w : Identity) (h : Handle)
    (hwu : w ≠ u) : findEntry (register r u h) w = findEntry r w := by
  rw [register_eq]
  exact findEntry_setEntry_ne r u w _ hwu

theorem snapshot_unregister_self (r : Registry) (u : Identity) (h : Handle) :
    snapshot (unregister r u h) u = (snapshot r u).erase h := by
  rw [unregister_eq]
  cases hr : findEntry r u with
  | none => simp [snapshot, hr]
  | some l =>
    show snapshot (if l.erase h = [] then deleteEntry r u else setEntry r u (l.erase h)) u
      = (snapshot r u).erase h
    by_cases hl : l.erase h = []
    · simp [hl, snapshot, hr, findEntry_deleteEntry_self]
    · simp [hl, snapshot, hr, findEntry_setEntry_self]

theorem findEntry_unregister_ne (r : Registry) (u w : Identity) (h : Handle)
    (hwu : w ≠ u) : findEntry (unregister r u h) w = findEntry r w := by
  rw [unregister_eq]
  cases hr : findEntry r u with
  | none => rfl
  | some l =>
    show findEntry (if l.erase h = [] then deleteEntry r u else setEntry r u (l.erase h)) w
      = findEntry r w
    by_cases hl : l.erase h = []
    · simp [hl, findEntry_deleteEntry_ne r u w hwu]
    · simp [hl, findEntry_setEntry_ne r u w _ hwu]

theorem unregister_of_findEntry_none (r : Registry) (u : Identity) (h : Handle)
    (hr : findEntry r u = none) : unregister r u h = r := by
  unfold unregister
  rw [hr]

theorem mem_register (r : Registry) (u : Identity) (h : Handle)
    (p : Identity × List Handle) (hp : p ∈ register r u h) :
    p ∈ r ∨ p = (u, snapshot r u ++ [h]) := by
  rw [register_eq] at hp
  exact mem_setEntry r u _ p hp

theorem mem_unregister (r : Registry) (u : Identity) (h : Handle)
    (p : Identity × List Handle) (hp : p ∈ unregister r u h) :
    p ∈ r ∨ ∃ l, findEntry r u = some l ∧ p = (u, l.erase h) := by
  rw [unregister_eq] at hp
  cases hr : findEntry r u with
  | none =>
    rw [hr] at hp
    exact Or.inl hp
  | some l =>
    rw [hr] at hp
    have hp' : p ∈ (if l.erase h = [] then deleteEntry r u else setEntry r u (l.erase h)) := hp
    by_cases hl : l.erase h = []
    · rw [if_pos hl] at hp'
      exact Or.inl (mem_deleteEntry r u p hp')
    · rw [if_neg hl] at hp'
      rcases mem_setEntry r u _ p hp' with h' | h'
      · exact Or.inl h'
      · exact Or.inr ⟨l, rfl, h'⟩

theorem mem_closeAll (r : Registry) (u : Identity) (p : Identity × List Handle)
    (hp : p ∈ (closeAll r u).1) : p ∈ r := by
  unfold closeAll at hp
  cases hr : findEntry r u with
  | none =>
    rw [hr] at hp
    exact hp
  | some l =>
    rw [hr] at hp
    exact mem_deleteEntry r u p hp

theorem findEntry_closeAll_self (r : Registry) (u : Identity) :
    findEntry (closeAll r u).1 u = none := by
  unfold closeAll
  cases hr : findEntry r u with
  | none => simpa using hr
  | some l => simpa using findEntry_deleteEntry_self r u

theorem findEntry_closeAll_ne (r : Registry) (u w : Identity) (hwu : w ≠ u) :
    findEntry (closeAll r u).1 w = findEntry r w := by
  unfold closeAll
  cases hr : findEntry r u with
  | none => rfl
  | some l => simpa using findEntry_deleteEntry_ne r u w hwu

theorem closeAll_snd (r : Registry) (u : Identity) :
    (closeAll r u).2 = snapshot r u := by
  unfold closeAll
  cases hr : findEntry r u with
  | none => simp [snapshot, hr]
  | some l => simp [snapshot, hr]

theorem sendTranscriptUpdate_eq (r : Registry) (u : Identity) (t : TranscriptData)
    (l : List Handle) (hr : findEntry r u = some l) :
    sendTranscriptUpdate r u t = l.map (fun h => (h, sseFrame (serializeTranscript t))) := by
  unfold sendTranscriptUpdate
  rw [hr]

theorem sendTranscriptUpdate_snapshot (r : Registry) (u : Identity) (t : TranscriptData) :
    sendTranscriptUpdate r u t
      = (snapshot r u).map (fun h => (h, sseFrame (serializeTranscript t))) := by
  unfold sendTranscriptUpdate snapshot
  cases hr : findEntry r u with
  | none => rfl
  | some l => rfl

theorem mem_sendTranscriptUpdate (r : Registry) (u : Identity) (t : TranscriptData)
    (w : Handle × String) (hw : w ∈ sendTranscriptUpdate r u t) :
    w.1 ∈ snapshot r u ∧ w.2 = sseFrame (serializeTranscript t) := by
  rw [sendTranscriptUpdate_snapshot] at hw
  simp only [List.mem_map] at hw
  obtain ⟨x, hx, hxw⟩ := hw
  subst hxw
  exact ⟨hx, rfl⟩

theorem WF_register (r : Registry) (u : Identity) (h : Handle) (hwf : WF r) :
    WF (register r u h) := by
  rw [register_eq]
  refine ⟨keys_setEntry_nodup r u _ hwf.1, fun p hp => ?_⟩
  rcases mem_setEntry r u _ p hp with h' | h'
  · exact hwf.2 p h'
  · subst h'
    simp

theorem WF_unregister (r : Registry) (u : Identity) (h : Handle) (hwf : WF r) :
    WF (unregister r u h) := by
  rw [unregister_eq]
  cases hr : findEntry r u with
  | none => exact hwf
  | some l =>
    show WF (if l.erase h = [] then deleteEntry r u else setEntry r u (l.erase h))
    by_cases hl : l.erase h = []
    · rw [if_pos hl]
      exact ⟨keys_deleteEntry_nodup r u hwf.1,
        fun p hp => hwf.2 p (mem_deleteEntry r u p hp)⟩
    · rw [if_neg hl]
      refine ⟨keys_setEntry_nodup r u _ hwf.1, fun p hp => ?_⟩
      rcases mem_setEntry r u _ p hp with h' | h'
      · exact hwf.2 p h'
      · subst h'
        simpa using hl

theorem WF_closeAll (r : Registry) (u : Identity) (hwf : WF r) :
    WF (closeAll r u).1 := by
  unfold closeAll
  cases hr : findEntry r u with
  | none => exact hwf
  | some l =>
    exact ⟨keys_deleteEntry_nodup r u hwf.1,
      fun p hp => hwf.2 p (mem_deleteEntry r u p hp)⟩

theorem writeEach_ok (fails : FailSet) (msg : String) (l : List Handle)
    (h : ∀ x ∈ l, fails x = false) :
    writeEach fails msg l = (l.map (fun x => (x, msg)), false) := by
  induction l with
  | nil => rfl
  | cons x xs ih =>
    have hx := h x (List.mem_cons_self x xs)
    simp [writeEach, hx, ih (fun y hy => h y (List.mem_cons_of_mem _ hy))]

theorem writeEach_fail (fails : FailSet) (msg : String) (pre : List Handle)
    (h0 : Handle) (post : List Handle)
    (hpre : ∀ x ∈ pre, fails x = false) (h0f : fails h0 = true) :
    writeEach fails msg (pre ++ h0 :: post) = (pre.map (fun x => (x, msg)), true) := by
  induction pre with
  | nil => simp [writeEach, h0f]
  | cons x xs ih =>
    have hx := hpre x (List.mem_cons_self x xs)
    simp [writeEach, hx, ih (fun y hy => hpre y (List.mem_cons_of_mem _ hy))]

theorem not_mem_snapshot_of_handleFree (r : Registry) (u : Identity) (hh : Handle)
    (hf : handleFree r hh) : hh ∉ snapshot r u := by
  unfold snapshot
  cases hr : findEntry r u with
  | none => simp
  | some l => simpa using hf (u, l) (findEntry_mem r u l hr)

theorem handleFree_register (r : Registry) (u : Identity) (h2 hh : Handle)
    (hne : h2 ≠ hh) (hf : handleFree r hh) : handleFree (register r u h2) hh := by
  intro p hp
  rcases mem_register r u h2 p hp with h' | h'
  · exact hf p h'
  · subst h'
    simp only [List.mem_append, List.mem_singleton]
    push_neg
    exact ⟨not_mem_snapshot_of_handleFree r u hh hf, Ne.symm hne⟩

theorem handleFree_unregister (r : Registry) (u : Identity) (h2 hh : Handle)
    (hf : handleFree r hh) : handleFree (unregister r u h2) hh := by
  intro p hp
  rcases mem_unregister r u h2 p hp with h' | ⟨l, hl, h'⟩
  · exact hf p h'
  · subst h'
    exact fun hmem => hf (u, l) (findEntry_mem r u l hl) (List.mem_of_mem_erase hmem)

theorem handleFree_closeAll (r : Registry) (u : Identity) (hh : Handle)
    (hf : handleFree r hh) : handleFree (closeAll r u).1 hh :=
  fun p hp => hf p (mem_closeAll r u p hp)

theorem step_handleFree (r : Registry) (op : Op) (hh : Handle)
    (hf : handleFree r hh) (hop : isConnectOf op hh = false) :
    handleFree (step r op).1 hh ∧ ∀ w ∈ (step r op).2, w.1 ≠ hh := by
  cases op with
  | connect auth h2 =>
    cases auth with
    | none => exact ⟨hf, by simp [step, handleTranscripts]⟩
    | some u =>
      have hne : h2 ≠ hh := by simpa [isConnectOf] using hop
      constructor
      · simpa [step, handleTranscripts] using handleFree_register r u h2 hh hne hf
      · simpa [step, handleTranscripts] using hne
  | close u h2 => exact ⟨handleFree_unregister r u h2 hh hf, by simp [step]⟩
  | closeSession u => exact ⟨handleFree_closeAll r u hh hf, by simp [step]⟩
  | publish u t =>
    refine ⟨hf, fun w hw => ?_⟩
    have hw' := (mem_sendTranscriptUpdate r u t w hw).1
    intro hcontra
    rw [hcontra] at hw'
    exact not_mem_snapshot_of_handleFree r u hh hf hw'

theorem run_handleFree (r : Registry) (ops : List Op) (hh : Handle)
    (hf : handleFree r hh) (hops : ∀ op ∈ ops, isConnectOf op hh = false) :
    handleFree (run r ops).1 hh ∧ ∀ w ∈ (run r ops).2, w.1 ≠ hh := by
  induction ops generalizing r with
  | nil => exact ⟨hf, by simp [run]⟩
  | cons op ops ih =>
    have h1 := step_handleFree r op hh hf (hops op (List.mem_cons_self op ops))
    have h2 := ih (step r op).1 h1.1 (fun o ho => hops o (List.mem_cons_of_mem _ ho))
    refine ⟨h2.1, fun w hw => ?_⟩
    simp only [run, List.mem_append] at hw
    rcases hw with hw | hw
    · exact h1.2 w hw
    · exact h2.2 w hw

theorem run_append (r : Registry) (a b : List Op) :
    run r (a ++ b) = ((run (run r a).1 b).1, (run r a).2 ++ (run (run r a).1 b).2) := by
  induction a generalizing r with
  | nil => simp [run]
  | cons op ops ih =>
    show ((run (step r op).1 (ops ++ b)).1,
          (step r op).2 ++ (run (step r op).1 (ops ++ b)).2)
        = ((run (run (step r op).1 ops).1 b).1,
           ((step r op).2 ++ (run (step r op).1 ops).2)
             ++ (run (run (step r op).1 ops).1 b).2)
    rw [ih]
    simp [List.append_assoc]

theorem count_map_pair (l : List Handle) (msg : String) (a : Handle) :
    (l.map (fun h => (h, msg))).count (a, msg) = l.count a := by
  induction l with
  | nil => rfl
  | cons x xs ih =>
    by_cases hx : x = a
    · subst hx
      simp [List.count_cons, ih]
    · simp [List.count_cons, ih, hx, Prod.mk.injEq]

/-- Claim C9: a connection attempt without an authenticated `userId` is
answered with status 401, performs no SSE write, and leaves the connection
map exactly as it was — no handle is registered under any identity. -/
theorem unauthorized_rejected (r : Registry) (h : Handle) :
    handleTranscripts r none h = { registry := r, status := 401, writes := [] } ∧
    (handleTranscripts r none h).registry = r ∧
    (∀ v : Identity, snapshot (handleTranscripts r none h).registry v = snapshot r v) :=
  ⟨rfl, rfl, fun _ => rfl⟩

/-- Claim C6: `sendTranscriptUpdate` never mutates the registry (the
post-state of the publish step is the input registry, so no handle is added,
removed or reordered for any identity), every write it performs targets a
handle in `u`'s own snapshot, it writes nothing to a handle not registered
under `u` (in particular to handles of identities `v ≠ u`), and it is a
silent no-op when `u` has no handles. -/
theorem publish_pure_isolated (r : Registry) (u : Identity) (t : TranscriptData) :
    (step r (Op.publish u t)).1 = r ∧
    (∀ w ∈ sendTranscriptUpdate r u t, w.1 ∈ snapshot r u) ∧
    (snapshot r u = [] → sendTranscriptUpdate r u t = []) ∧
    (∀ h : Handle, h ∉ snapshot r u → ∀ w ∈ sendTranscriptUpdate r u t, w.1 ≠ h) := by
  refine ⟨rfl, fun w hw => (mem_sendTranscriptUpdate r u t w hw).1, fun hs => ?_, ?_⟩
  · rw [sendTranscriptUpdate_snapshot, hs]
    rfl
  · intro h hh w hw hcontra
    exact hh (hcontra ▸ (mem_sendTranscriptUpdate r u t w hw).1)

/-- Witness for C6 at Scenario C: publishing to `"carol"`, who has no
handles, changes nothing and writes nothing, while `"v"`'s registry entry
stays intact. -/
theorem publish_pure_isolated_witness :
    (step ([(("v" : Identity), [5])]) (Op.publish ("carol") ⟨("e"), 1, true⟩)).1
      = [(("v" : Identity), [5])] ∧
    sendTranscriptUpdate ([(("v" : Identity), [5])]) ("carol") ⟨("e"), 1, true⟩ = [] :=
  ⟨(publish_pure_isolated ([(("v" : Identity), [5])]) ("carol") ⟨("e"), 1, true⟩).1,
   (publish_pure_isolated ([(("v" : Identity), [5])]) ("carol") ⟨("e"), 1, true⟩).2.2.1
     (by decide)⟩

/-- Claim C7: `closeAll u` (the `onDisconnected` handler) ends exactly the
currently registered handles of `u`, removes `u`'s entry entirely, leaves
every other identity's entry untouched, and a later `unregister u h` on the
resulting registry is a no-op for every handle. -/
theorem closeAll_ends_and_clears (r : Registry) (u : Identity) :
    (closeAll r u).2 = snapshot r u ∧
    findEntry (closeAll r u).1 u = none ∧
    (∀ w : Identity, w ≠ u → findEntry (closeAll r u).1 w = findEntry r w) ∧
    (∀ h : Handle, unregister (closeAll r u).1 u h = (closeAll r u).1) :=
  ⟨closeAll_snd r u, findEntry_closeAll_self r u,
   fun w hw => findEntry_closeAll_ne r u w hw,
   fun h => unregister_of_findEntry_none _ u h (findEntry_closeAll_self r u)⟩

/-- Witness for C7 at Scenario D: closing `"dave"` ends handle 1, deletes the
entry, leaves `"erin"` alone, and the later `unregister "dave" 1` is a no-op. -/
theorem closeAll_ends_and_clears_witness :
    (closeAll ([(("dave" : Identity), [1]), (("erin" : Identity), [7])]) ("dave")).2 = [1] ∧
    findEntry (closeAll ([(("dave" : Identity), [1]), (("erin" : Identity), [7])]) ("dave")).1
      ("dave") = none ∧
    findEntry (closeAll ([(("dave" : Identity), [1]), (("erin" : Identity), [7])]) ("dave")).1
      ("erin") = findEntry ([(("dave" : Identity), [1]), (("erin" : Identity), [7])]) ("erin") ∧
    unregister (closeAll ([(("dave" : Identity), [1]), (("erin" : Identity), [7])]) ("dave")).1
        ("dave") 1
      = (closeAll ([(("dave" : Identity), [1]), (("erin" : Identity), [7])]) ("dave")).1 :=
  ⟨(closeAll_ends_and_clears ([(("dave" : Identity), [1]), (("erin" : Identity), [7])]) ("dave")).1,
   (closeAll_ends_and_clears ([(("dave" : Identity), [1]), (("erin" : Identity), [7])]) ("dave")).2.1,
   (closeAll_ends_and_clears ([(("dave" : Identity), [1]), (("erin" : Identity), [7])]) ("dave")).2.2.1
     ("erin") (by decide),
   (closeAll_ends_and_clears ([(("dave" : Identity), [1]), (("erin" : Identity), [7])]) ("dave")).2.2.2 1⟩

/-- Claim C3: starting from a well-formed registry (unique keys, no empty
collection), every completed `register`, `unregister` and `closeAll` leaves
it well-formed — every identity present as a key has a non-empty collection;
in particular, removing the only handle of `u` deletes the entry: the
snapshot is empty and `u` is absent from the key set. -/
theorem registry_nonempty_invariant (r : Registry) (u : Identity) (h : Handle)
    (hwf : WF r) :
    WF (register r u h) ∧ WF (unregister r u h) ∧ WF (closeAll r u).1 ∧
    (findEntry r u = some [h] →
      snapshot (unregister r u h) u = [] ∧
      u ∉ (unregister r u h).map Prod.fst) := by
  refine ⟨WF_register r u h hwf, WF_unregister r u h hwf, WF_closeAll r u hwf,
    fun hr => ?_⟩
  have hu : unregister r u h = deleteEntry r u := by
    rw [unregister_eq, hr]
    show (if ([h] : List Handle).erase h = [] then deleteEntry r u
          else setEntry r u (([h] : List Handle).erase h)) = deleteEntry r u
    simp
  constructor
  · rw [hu]
    simp [snapshot, findEntry_deleteEntry_self]
  · rw [hu]
    exact not_mem_keys_deleteEntry r u

/-- Witness for C3: a well-formed one-entry registry whose only handle for
`"u"` is 3; unregistering it deletes the entry. -/
theorem registry_nonempty_invariant_witness :
    WF ([(("u" : Identity), [3])]) ∧
    findEntry ([(("u" : Identity), [3])]) ("u") = some [3] ∧
    (WF (register ([(("u" : Identity), [3])]) ("u") 3) ∧
     WF (unregister ([(("u" : Identity), [3])]) ("u") 3) ∧
     WF (closeAll ([(("u" : Identity), [3])]) ("u")).1 ∧
     (findEntry ([(("u" : Identity), [3])]) ("u") = some [3] →
       snapshot (unregister ([(("u" : Identity), [3])]) ("u") 3) ("u") = [] ∧
       ("u" : Identity) ∉ (unregister ([(("u" : Identity), [3])]) ("u") 3).map Prod.fst)) :=
  ⟨by decide, by decide, registry_nonempty_invariant ([(("u" : Identity), [3])]) ("u") 3 (by decide)⟩

/-- Claim C4 counterexample: with handle 1 registered twice for `"u"`
(register never deduplicates), one `unregister` leaves one copy while a
second `unregister` removes the other copy and deletes the entry, so
unregistering twice is not equivalent to unregistering once. -/
theorem unregister_not_idempotent_cex :
    unregister (unregister ([(("u" : Identity), [1, 1])]) ("u") 1) ("u") 1
      ≠ unregister ([(("u" : Identity), [1, 1])]) ("u") 1 := by decide

/-- Claim C4 (amended): whenever handle `h` occurs at most once in `u`'s
collection — which holds for every state reachable without registering the
same handle twice — `unregister u h` is idempotent: the second call changes
nothing (and, the operations being total, raises no error). -/
theorem unregister_idempotent (r : Registry) (u : Identity) (h : Handle)
    (hcount : (snapshot r u).count h ≤ 1) :
    unregister (unregister r u h) u h = unregister r u h := by
  cases hr : findEntry r u with
  | none =>
    rw [unregister_of_findEntry_none r u h hr, unregister_of_findEntry_none r u h hr]
  | some l =>
    have hsnap : snapshot r u = l := by simp [snapshot, hr]
    rw [hsnap] at hcount
    have h1 : unregister r u h
        = if l.erase h = [] then deleteEntry r u else setEntry r u (l.erase h) := by
      rw [unregister_eq, hr]
    by_cases hl : l.erase h = []
    · rw [h1, if_pos hl]
      exact unregister_of_findEntry_none _ u h (findEntry_deleteEntry_self r u)
    · rw [h1, if_neg hl]
      have hnot : h ∉ l.erase h := by
        intro hc
        have hpos : 0 < (l.erase h).count h := List.count_pos_iff.mpr hc
        have hes : (l.erase h).count h = l.count h - 1 := List.count_erase_self h l
        omega
      rw [unregister_eq, findEntry_setEntry_self r u (l.erase h)]
      show (if (l.erase h).erase h = [] then deleteEntry (setEntry r u (l.erase h)) u
            else setEntry (setEntry r u (l.erase h)) u ((l.erase h).erase h))
          = setEntry r u (l.erase h)
      rw [List.erase_of_not_mem hnot, if_neg hl]
      exact setEntry_setEntry r u _ _

/-- Witness for C4 (amended): handle 2 occurs once for `"u"`; a double
unregister equals a single one. -/
theorem unregister_idempotent_witness :
    (snapshot ([(("u" : Identity), [2, 3])]) ("u")).count 2 ≤ 1 ∧
    unregister (unregister ([(("u" : Identity), [2, 3])]) ("u") 2) ("u") 2
      = unregister ([(("u" : Identity), [2, 3])]) ("u") 2 :=
  ⟨by decide, unregister_idempotent ([(("u" : Identity), [2, 3])]) ("u") 2 (by decide)⟩

/-- Claim C5: `unregister` removes exactly the given handle, located by
identity comparison (`indexOf` on the handle itself): with pairwise-distinct
registered handles, after `unregister u h1` the collection for `u` is exactly
the previously registered handles other than `h1`, and a subsequent publish
delivers the event to exactly those remaining handles. -/
theorem unregister_removes_exact_handle (r : Registry) (u : Identity)
    (t : TranscriptData) (h1 : Handle) (l : List Handle)
    (hconn : findEntry r u = some l) (hnd : l.Nodup) (hmem : h1 ∈ l) :
    snapshot (unregister r u h1) u = l.filter (fun x => x != h1) ∧
    (sendTranscriptUpdate (unregister r u h1) u t).map Prod.fst
      = l.filter (fun x => x != h1) := by
  have hsnap : snapshot r u = l := by simp [snapshot, hconn]
  have h1' : snapshot (unregister r u h1) u = l.erase h1 := by
    rw [snapshot_unregister_self, hsnap]
  have hf : l.erase h1 = l.filter (fun x => x != h1) := hnd.erase_eq_filter h1
  refine ⟨h1'.trans hf, ?_⟩
  have hcomp : (Prod.fst ∘ fun h : Handle => (h, sseFrame (serializeTranscript t))) = id := rfl
  rw [sendTranscriptUpdate_snapshot, h1'.trans hf, List.map_map, hcomp, List.map_id]

/-- Witness for C5 at Scenario B: `"bob"` has handles 1 and 2; after
unregistering 1, only handle 2 remains and only it receives the publish. -/
theorem unregister_removes_exact_handle_witness :
    findEntry ([(("bob" : Identity), [1, 2])]) ("bob") = some [1, 2] ∧
    ([1, 2] : List Handle).Nodup ∧ (1 : Handle) ∈ ([1, 2] : List Handle) ∧
    (snapshot (unregister ([(("bob" : Identity), [1, 2])]) ("bob") 1) ("bob")
        = ([1, 2] : List Handle).filter (fun x => x != 1) ∧
      (sendTranscriptUpdate (unregister ([(("bob" : Identity), [1, 2])]) ("bob") 1)
          ("bob") ⟨("e"), 3, true⟩).map Prod.fst
        = ([1, 2] : List Handle).filter (fun x => x != 1)) :=
  ⟨by decide, by decide, by decide,
   unregister_removes_exact_handle ([(("bob" : Identity), [1, 2])]) ("bob")
     ⟨("e"), 3, true⟩ 1 [1, 2] (by decide) (by decide) (by decide)⟩

/-- Claim C1: with handles h1 and h2 each registered exactly once for `u`,
`sendTranscriptUpdate` serializes the event once into the wire string
`data: {"type":"transcript","text":…,"timestamp":…,"isFinal":…}\n\n` and
writes that one shared string exactly once to h1 and exactly once to h2,
delivering in the order the handles appear in the registered collection
(the write list is the collection mapped in order onto the single frame). -/
theorem publish_fanout (r : Registry) (u : Identity) (t : TranscriptData)
    (h1 h2 : Handle) (l : List Handle) (hconn : findEntry r u = some l)
    (h1c : l.count h1 = 1) (h2c : l.count h2 = 1) :
    sendTranscriptUpdate r u t
      = l.map (fun h => (h, sseFrame (serializeTranscript t))) ∧
    (sendTranscriptUpdate r u t).count (h1, sseFrame (serializeTranscript t)) = 1 ∧
    (sendTranscriptUpdate r u t).count (h2, sseFrame (serializeTranscript t)) = 1 := by
  have he := sendTranscriptUpdate_eq r u t l hconn
  refine ⟨he, ?_, ?_⟩
  · rw [he, count_map_pair, h1c]
  · rw [he, count_map_pair, h2c]

/-- Witness for C1 at Scenario A (extended to two handles): `"alice"` has
handles 1 and 2; both receive the exact wire string of the spec once. -/
theorem publish_fanout_witness :
    findEntry ([(("alice" : Identity), [1, 2])]) ("alice") = some [1, 2] ∧
    ([1, 2] : List Handle).count 1 = 1 ∧
    ([1, 2] : List Handle).count 2 = 1 ∧
    (sendTranscriptUpdate ([(("alice" : Identity), [1, 2])]) ("alice")
        ⟨("hi"), 1000, false⟩
      = ([1, 2] : List Handle).map
          (fun h => (h, sseFrame (serializeTranscript ⟨("hi"), 1000, false⟩))) ∧
     (sendTranscriptUpdate ([(("alice" : Identity), [1, 2])]) ("alice")
        ⟨("hi"), 1000, false⟩).count
          (1, sseFrame (serializeTranscript ⟨("hi"), 1000, false⟩)) = 1 ∧
     (sendTranscriptUpdate ([(("alice" : Identity), [1, 2])]) ("alice")
        ⟨("hi"), 1000, false⟩).count
          (2, sseFrame (serializeTranscript ⟨("hi"), 1000, false⟩)) = 1) ∧
    sseFrame (serializeTranscript ⟨("hi"), 1000, false⟩)
      = ("data: \x7b\"type\":\"transcript\",\"text\":\"hi\",\"timestamp\":1000,\"isFinal\":false\x7d\n\n") :=
  ⟨by decide, by decide, by decide,
   publish_fanout ([(("alice" : Identity), [1, 2])]) ("alice") ⟨("hi"), 1000, false⟩
     1 2 [1, 2] (by decide) (by decide) (by decide),
   by decide⟩

/-- Claim C10: `register` does not deduplicate — pushing the same fresh
handle twice makes it appear twice in `u`'s collection, a publish then
writes two copies of the frame to it, and a single `unregister` removes only
the first occurrence, leaving one copy registered. -/
theorem register_no_dedup (r : Registry) (u : Identity) (h : Handle)
    (t : TranscriptData) (hfresh : h ∉ snapshot r u) :
    snapshot (register (register r u h) u h) u = snapshot r u ++ [h, h] ∧
    (snapshot (register (register r u h) u h) u).count h = 2 ∧
    (sendTranscriptUpdate (register (register r u h) u h) u t).count
        (h, sseFrame (serializeTranscript t)) = 2 ∧
    snapshot (unregister (register (register r u h) u h) u h) u
      = snapshot r u ++ [h] ∧
    (snapshot (unregister (register (register r u h) u h) u h) u).count h = 1 := by
  have hc0 : (snapshot r u).count h = 0 := List.count_eq_zero.mpr hfresh
  have e1 : snapshot (register (register r u h) u h) u = snapshot r u ++ [h, h] := by
    rw [snapshot_register_self, snapshot_register_self, List.append_assoc]
    rfl
  have e2 : snapshot (unregister (register (register r u h) u h) u h) u
      = snapshot r u ++ [h] := by
    rw [snapshot_unregister_self, e1, List.erase_append_right _ hfresh]
    simp
  refine ⟨e1, ?_, ?_, e2, ?_⟩
  · rw [e1]
    simp [hc0]
  · rw [sendTranscriptUpdate_snapshot, e1, count_map_pair]
    simp [hc0]
  · rw [e2]
    simp [hc0]

/-- Witness for C10: handle 4 registered twice for `"u"` from the empty
registry; it is listed twice, receives the frame twice, and one unregister
leaves one copy. -/
theorem register_no_dedup_witness :
    (4 : Handle) ∉ snapshot ([] : Registry) ("u") ∧
    (snapshot (register (register ([] : Registry) ("u") 4) ("u") 4) ("u")
        = snapshot ([] : Registry) ("u") ++ [4, 4] ∧
     (snapshot (register (register ([] : Registry) ("u") 4) ("u") 4) ("u")).count 4 = 2 ∧
     (sendTranscriptUpdate (register (register ([] : Registry) ("u") 4) ("u") 4) ("u")
        ⟨("t"), 9, true⟩).count
          (4, sseFrame (serializeTranscript ⟨("t"), 9, true⟩)) = 2 ∧
     snapshot (unregister (register (register ([] : Registry) ("u") 4) ("u") 4) ("u") 4) ("u")
        = snapshot ([] : Registry) ("u") ++ [4] ∧
     (snapshot (unregister (register (register ([] : Registry) ("u") 4) ("u") 4) ("u") 4)
        ("u")).count 4 = 1) :=
  ⟨by decide, register_no_dedup ([] : Registry) ("u") 4 ⟨("t"), 9, true⟩ (by decide)⟩

/-- Claim C2 counterexample: `"u"` has handles 1 and 2 and the write to
handle 1 throws; `sendTranscriptUpdate` (which has no try/catch around the
`forEach`) performs no write at all — handle 2 receives nothing — and the
exception escapes to the caller, contradicting the claimed dead-handle
tolerance. -/
theorem publish_write_failure_cex :
    sendTranscriptUpdateF (fun h => h == 1) ([(("u" : Identity), [1, 2])]) ("u")
        ⟨("hi"), 1000, false⟩ = ([], true) ∧
    ¬ ((2, sseFrame (serializeTranscript ⟨("hi"), 1000, false⟩)) ∈
        (sendTranscriptUpdateF (fun h => h == 1) ([(("u" : Identity), [1, 2])]) ("u")
          ⟨("hi"), 1000, false⟩).1 ∧
       (sendTranscriptUpdateF (fun h => h == 1) ([(("u" : Identity), [1, 2])]) ("u")
          ⟨("hi"), 1000, false⟩).2 = false) := by decide

/-- Claim C2 (amended): when a write throws, `sendTranscriptUpdate` delivers
the frame to exactly the handles that precede the first failing handle in
the collection (in order) and the exception propagates to the caller; the
handles after the failing one receive nothing. -/
theorem publish_write_failure_aborts (fails : FailSet) (r : Registry)
    (u : Identity) (t : TranscriptData) (pre post : List Handle) (h0 : Handle)
    (hconn : findEntry r u = some (pre ++ h0 :: post))
    (hpre : ∀ x ∈ pre, fails x = false) (h0f : fails h0 = true) :
    sendTranscriptUpdateF fails r u t
      = (pre.map (fun x => (x, sseFrame (serializeTranscript t))), true) := by
  unfold sendTranscriptUpdateF
  rw [hconn]
  exact writeEach_fail fails _ pre h0 post hpre h0f

/-- Witness for C2 (amended): with handles 1, 2, 3 for `"u"` and the write
to handle 2 throwing, only handle 1 receives the frame and the exception
escapes. -/
theorem publish_write_failure_aborts_witness :
    findEntry ([(("u" : Identity), [1, 2, 3])]) ("u") = some ([1] ++ 2 :: [3]) ∧
    (∀ x ∈ ([1] : List Handle), (fun h : Handle => h == 2) x = false) ∧
    (fun h : Handle => h == 2) 2 = true ∧
    sendTranscriptUpdateF (fun h : Handle => h == 2) ([(("u" : Identity), [1, 2, 3])])
        ("u") ⟨("hi"), 1000, false⟩
      = (([1] : List Handle).map
          (fun x => (x, sseFrame (serializeTranscript ⟨("hi"), 1000, false⟩))), true) :=
  ⟨by decide, by decide, by decide,
   publish_write_failure_aborts (fun h : Handle => h == 2)
     ([(("u" : Identity), [1, 2, 3])]) ("u") ⟨("hi"), 1000, false⟩
     [1] [3] 2 (by decide) (by decide) (by decide)⟩

/-- Claim C8: for a new authenticated connection of identity `u` on a fresh
handle `h`, the endpoint writes exactly one acknowledgment
`data: {"type":"connected","userId":"<u>"}\n\n`, to `h` and to no other
handle, and in the whole trace the first message `h` ever receives is that
acknowledgment — before any transcript event is delivered to it. -/
theorem connect_ack_first (r0 : Registry) (ops1 ops2 : List Op) (u : Identity)
    (h : Handle) (hfree : handleFree r0 h)
    (hops : ∀ op ∈ ops1, isConnectOf op h = false) :
    (step (run r0 ops1).1 (Op.connect (some u) h)).2
      = [(h, sseFrame (serializeConnected u))] ∧
    ((run r0 (ops1 ++ Op.connect (some u) h :: ops2)).2.filter
        (fun w => w.1 == h)).head?
      = some (h, sseFrame (serializeConnected u)) := by
  refine ⟨rfl, ?_⟩
  rw [run_append]
  have hlog := (run_handleFree r0 ops1 h hfree hops).2
  have hfil1 : (run r0 ops1).2.filter (fun w => w.1 == h) = [] := by
    rw [List.filter_eq_nil_iff]
    intro w hw
    simpa using hlog w hw
  show (((run r0 ops1).2
      ++ (run (run r0 ops1).1 (Op.connect (some u) h :: ops2)).2).filter
        (fun w => w.1 == h)).head? = _
  rw [List.filter_append, hfil1, List.nil_append]
  show (((h, sseFrame (serializeConnected u))
      :: (run (register (run r0 ops1).1 u h) ops2).2).filter
        (fun w => w.1 == h)).head? = _
  rw [List.filter_cons]
  simp

/-- Witness for C8: a fresh handle 2 connects as `"bob"` after `"alice"`'s
activity; its first received message is the connected acknowledgment, and
the connect step writes only that. -/
theorem connect_ack_first_witness :
    handleFree ([] : Registry) 2 ∧
    (∀ op ∈ ([Op.connect (some ("alice")) 1, Op.publish ("alice") ⟨("x"), 5, true⟩]),
      isConnectOf op 2 = false) ∧
    ((step (run ([] : Registry)
          ([Op.connect (some ("alice")) 1, Op.publish ("alice") ⟨("x"), 5, true⟩])).1
        (Op.connect (some ("bob")) 2)).2
      = [(2, sseFrame (serializeConnected ("bob")))] ∧
     ((run ([] : Registry)
          ([Op.connect (some ("alice")) 1, Op.publish ("alice") ⟨("x"), 5, true⟩]
            ++ Op.connect (some ("bob")) 2 :: [Op.publish ("bob") ⟨("y"), 6, false⟩])).2.filter
        (fun w => w.1 == 2)).head?
      = some (2, sseFrame (serializeConnected ("bob")))) :=
  ⟨by decide, by decide,
   connect_ack_first ([] : Registry)
     ([Op.connect (some ("alice")) 1, Op.publish ("alice") ⟨("x"), 5, true⟩])
     ([Op.publish ("bob") ⟨("y"), 6, false⟩]) ("bob") 2 (by decide) (by decide)⟩

end SSE
